import Mathlib

/-!
Verification of the DCF Monte Carlo valuation script (src/DCF3.py).

The script reads a set of numeric inputs, validates that shares and revenue
are positive, and then runs a Monte Carlo loop: each iteration draws six
random quantities (four normal, two triangular), computes an adjusted beta
and a WACC, projects free cash flow over the chosen horizon, adds a
perpetuity-growth terminal value, and records the intrinsic value per share
together with the iteration's WACC and adjusted beta.

The embedding below models all arithmetic over ℚ.  The random draws are
treated as external inputs to the engine (a `Draw` record per iteration);
the triangular sampler, which lives in the NumPy library rather than in the
repository, is modelled from its documented behaviour (inverse CDF, with the
precondition `left ≤ mode ≤ right`).  Python's `ZeroDivisionError` is
modelled by `Option`-valued variants of the per-iteration steps.
-/

namespace DCF3

/-- Sidebar/numeric inputs of the script (src/DCF3.py lines 12-43).  All are
floating-point numbers in the script, modelled as rationals; `years` comes
from a slider with range 1..20. -/
structure Inputs where
  initial_fcf : ℚ
  market_price : ℚ
  revenue : ℚ
  de_ratio : ℚ
  shares : ℚ
  rd : ℚ
  net_cash : ℚ
  tc : ℚ
  years : ℕ
  baseline_margin : ℚ
  growth : ℚ
  rf : ℚ
  erp : ℚ
  unlevered_beta : ℚ
  term_growth : ℚ
  margin_min : ℚ
  margin_max : ℚ
deriving DecidableEq

/-- One iteration's sampled values (src/DCF3.py lines 52-57): growth `g`,
margin `m`, risk-free rate `r_f`, equity risk premium `er_p`, unlevered beta
`beta_u`, terminal growth `t_growth`. -/
structure Draw where
  g : ℚ
  m : ℚ
  r_f : ℚ
  er_p : ℚ
  beta_u : ℚ
  t_growth : ℚ
deriving DecidableEq

/-- Levered beta (line 59): `beta_l = beta_u * (1 + (1 - tc) * de_ratio)`. -/
def beta_l (a : Inputs) (d : Draw) : ℚ :=
  d.beta_u * (1 + (1 - a.tc) * a.de_ratio)

/-- Adjusted beta (line 60): `beta_adj = 0.67 * beta_l + 0.33 * 1.0`. -/
def beta_adj (a : Inputs) (d : Draw) : ℚ :=
  0.67 * beta_l a d + 0.33 * 1.0

/-- Debt ratio (line 62): `debt_ratio = de_ratio / (1 + de_ratio)`. -/
def debt_ratio (a : Inputs) : ℚ :=
  a.de_ratio / (1 + a.de_ratio)

/-- Equity ratio (line 63): `equity_ratio = 1 - debt_ratio`. -/
def equity_ratio (a : Inputs) : ℚ :=
  1 - debt_ratio a

/-- Cost of equity (line 64): `re_cost = r_f + beta_adj * er_p`. -/
def re_cost (a : Inputs) (d : Draw) : ℚ :=
  d.r_f + beta_adj a d * d.er_p

/-- WACC (line 65): `wacc = equity_ratio * re_cost + debt_ratio * rd * (1 - tc)`.
No floor or cap is applied. -/
def wacc (a : Inputs) (d : Draw) : ℚ :=
  equity_ratio a * re_cost a d + debt_ratio a * a.rd * (1 - a.tc)

/-- Per-year FCF growth factor (line 71):
`(1 + g) * (1 + (m - baseline_margin) / baseline_margin * 0.1)`. -/
def fcf_factor (a : Inputs) (d : Draw) : ℚ :=
  (1 + d.g) * (1 + (d.m - a.baseline_margin) / a.baseline_margin * 0.1)

/-- The projection loop (lines 68-72): running FCF seeded at `initial_fcf`,
multiplied each year by `fcf_factor`, with each year's FCF discounted by
`(1 + wacc) ^ y` and accumulated.  `projectLoop a d w y` returns the pair
`(fcf_projection, total)` after `y` loop iterations. -/
def projectLoop (a : Inputs) (d : Draw) (w : ℚ) : ℕ → ℚ × ℚ
  | 0 => (a.initial_fcf, 0)
  | y + 1 =>
    let p := projectLoop a d w y
    let fcf := p.1 * fcf_factor a d
    (fcf, p.2 + fcf / (1 + w) ^ (y + 1))

/-- Terminal spread (line 74): `spread = max(wacc - t_growth, 0.005)`. -/
def spread (w tg : ℚ) : ℚ :=
  max (w - tg) 0.005

/-- Terminal value (line 75): `terminal_value = fcf_projection * (1 + t_growth) / spread`. -/
def terminal_value (fcf tg w : ℚ) : ℚ :=
  fcf * (1 + tg) / spread w tg

/-- Terminal present value (line 76): `terminal_pv = terminal_value / (1 + wacc) ** years`. -/
def terminal_pv (fcf tg w : ℚ) (h : ℕ) : ℚ :=
  terminal_value fcf tg w / (1 + w) ^ h

/-- Equity value (line 78): `equity_val = total + terminal_pv + net_cash`. -/
def equity_val (total tpv nc : ℚ) : ℚ :=
  total + tpv + nc

/-- Intrinsic value per share (line 79): `intrinsic_val = equity_val / shares`. -/
def intrinsic_val (ev sh : ℚ) : ℚ :=
  ev / sh

/-- One loop iteration (lines 59-80) as a pure function of the inputs and the
iteration's draw, returning the triple
`(intrinsic value, wacc, adjusted beta)` recorded by the `append` calls. -/
def runIteration (a : Inputs) (d : Draw) : ℚ × ℚ × ℚ :=
  (intrinsic_val
      (equity_val (projectLoop a d (wacc a d) a.years).2
        (terminal_pv (projectLoop a d (wacc a d) a.years).1 d.t_growth (wacc a d) a.years)
        a.net_cash)
      a.shares,
    wacc a d, beta_adj a d)

/-- The Monte Carlo loop (lines 46-80) over an externally supplied stream of
draws, one per iteration: returns the three result sequences
`(values, wacc_values, beta_values)` in iteration order. -/
def runSim (a : Inputs) : List Draw → List ℚ × List ℚ × List ℚ
  | [] => ([], [], [])
  | d :: ds =>
    let r := runIteration a d
    let rest := runSim a ds
    (r.1 :: rest.1, r.2.1 :: rest.2.1, r.2.2 :: rest.2.2)

/-- Upfront validation (lines 28-30): the script stops iff
`shares <= 0 or revenue <= 0`. -/
def validInputs (a : Inputs) : Bool :=
  !(decide (a.shares ≤ 0) || decide (a.revenue ≤ 0))

/-- The validated run (lines 28-80): `st.stop()` before the loop when
validation fails, otherwise the full simulation. -/
def runProgram (a : Inputs) (ds : List Draw) : Option (List ℚ × List ℚ × List ℚ) :=
  if validInputs a then some (runSim a ds) else none

/-- Probability-above-market statistic (line 90):
`np.mean(np.array(values) > market_price) * 100`, i.e. the count of values
strictly greater than the market price over the ensemble size, times 100. -/
def prob_above_market (values : List ℚ) (price : ℚ) : ℚ :=
  ((values.countP fun v => decide (price < v)) : ℚ) / (values.length : ℚ) * 100

/-- Specification-side WACC formula, written out directly from the spec text
(§4.2): `WACC = equity_ratio × cost_of_equity + debt_ratio × cost_of_debt ×
(1 − tax_rate)` with `equity_ratio = 1 − D/E/(1+D/E)`,
`cost_of_equity = r_f + adjusted_beta × ERP`, and
`adjusted_beta = 0.67 × unlevered_beta × (1 + (1 − tc) × D/E) + 0.33`. -/
def wacc_spec (a : Inputs) (d : Draw) : ℚ :=
  (1 - a.de_ratio / (1 + a.de_ratio)) *
      (d.r_f + (0.67 * (d.beta_u * (1 + (1 - a.tc) * a.de_ratio)) + 0.33 * 1.0) * d.er_p)
    + a.de_ratio / (1 + a.de_ratio) * a.rd * (1 - a.tc)

/-- Specification-side adjusted-beta formula (§4.2):
`0.67 × levered beta + 0.33 × 1.0` with the levered beta spelled out. -/
def beta_adj_spec (a : Inputs) (d : Draw) : ℚ :=
  0.67 * (d.beta_u * (1 + (1 - a.tc) * a.de_ratio)) + 0.33 * 1.0

/-- Modelled from the spec: `np.random.triangular(l, m, r)` is NumPy library
code, not part of this repository; per its documentation it rejects the call
unless `left ≤ mode ≤ right`.  This predicate is that precondition. -/
def triangularValid (l m r : ℚ) : Bool :=
  decide (l ≤ m) && decide (m ≤ r)

/-- Modelled from the spec: a triangular draw (spec §4.1, "a triangular
distribution bounded by configured min/max margin with mode at their
midpoint").  NumPy draws a uniform variate `u ∈ [0,1]` and inverts the
triangular CDF; the square roots involved are irrational in general, so the
draw is parameterised here by the value `s` of the relevant square root
(characterised by the hypotheses of `triangular_mem` below). -/
def triangularICDF (l m r u s : ℚ) : ℚ :=
  if u * (r - l) ≤ m - l then l + s else r - s

/-- Preconditions of the two triangular calls of the sampling step
(lines 53 and 57): `np.random.triangular(margin_min, (margin_min+margin_max)/2,
margin_max)` and `np.random.triangular(0.03, term_growth, 0.045)`. -/
def samplingValid (a : Inputs) : Bool :=
  triangularValid a.margin_min ((a.margin_min + a.margin_max) / 2) a.margin_max &&
    triangularValid 0.03 a.term_growth 0.045

/-- The sampling step (lines 52-57).  The four normal draws are unbounded and
are passed through from the ambient randomness; the two triangular draws are
modelled by `triangularICDF` and fail (NumPy `ValueError`) when the
preconditions are violated. -/
def sampleDraw (a : Inputs) (gv rfv erpv buv u1 s1 u2 s2 : ℚ) : Option Draw :=
  if samplingValid a then
    some
      { g := gv
        m := triangularICDF a.margin_min ((a.margin_min + a.margin_max) / 2) a.margin_max u1 s1
        r_f := rfv
        er_p := erpv
        beta_u := buv
        t_growth := triangularICDF 0.03 a.term_growth 0.045 u2 s2 }
  else none

/-- Division as Python performs it: `ZeroDivisionError` on a zero divisor,
modelled as `none`. -/
def stepDiv (x y : ℚ) : Option ℚ :=
  if y = 0 then none else some (x / y)

/-- The projection loop with Python's division failure made explicit:
line 71 divides by `baseline_margin` and line 72 by `(1 + wacc) ** y`. -/
def projectLoopE (a : Inputs) (d : Draw) (w : ℚ) : ℕ → Option (ℚ × ℚ)
  | 0 => some (a.initial_fcf, 0)
  | y + 1 =>
    (projectLoopE a d w y).bind fun p =>
      (stepDiv (d.m - a.baseline_margin) a.baseline_margin).bind fun rel =>
        (stepDiv (p.1 * ((1 + d.g) * (1 + rel * 0.1))) ((1 + w) ^ (y + 1))).bind fun disc =>
          some (p.1 * ((1 + d.g) * (1 + rel * 0.1)), p.2 + disc)

/-- One loop iteration with every Python division failure made explicit:
the divisions at lines 62, 71, 72, 75, 76 and 79. -/
def runIterationE (a : Inputs) (d : Draw) : Option (ℚ × ℚ × ℚ) :=
  (stepDiv a.de_ratio (1 + a.de_ratio)).bind fun dr =>
    (projectLoopE a d ((1 - dr) * (d.r_f + beta_adj a d * d.er_p) + dr * a.rd * (1 - a.tc))
        a.years).bind fun p =>
      (stepDiv (p.1 * (1 + d.t_growth))
          (spread ((1 - dr) * (d.r_f + beta_adj a d * d.er_p) + dr * a.rd * (1 - a.tc))
            d.t_growth)).bind fun tv =>
        (stepDiv tv
            ((1 + ((1 - dr) * (d.r_f + beta_adj a d * d.er_p) + dr * a.rd * (1 - a.tc))) ^
              a.years)).bind fun tpv =>
          (stepDiv (p.2 + tpv + a.net_cash) a.shares).bind fun iv =>
            some (iv, (1 - dr) * (d.r_f + beta_adj a d * d.er_p) + dr * a.rd * (1 - a.tc),
              beta_adj a d)

/-- The zero draw, used as a concrete iteration input. -/
def dZero : Draw :=
  { g := 0, m := 0, r_f := 0, er_p := 0, beta_u := 0, t_growth := 0 }

/-- A draw differing from `dZero` only in the risk-free rate. -/
def dOne : Draw :=
  { dZero with r_f := 1 }

/-- A concrete valid input set used by the witnesses. -/
def inputsW : Inputs :=
  { initial_fcf := 1, market_price := 0, revenue := 1, de_ratio := 0, shares := 1,
    rd := 0, net_cash := 0, tc := 0, years := 1, baseline_margin := 1,
    growth := 0, rf := 0, erp := 0, unlevered_beta := 1, term_growth := 0.04,
    margin_min := 0.08, margin_max := 0.12 }

/-- Inputs with positive shares and revenue but a non-positive initial FCF:
the script's validation (line 28) does not look at `initial_fcf`. -/
def cexInputsFcf : Inputs :=
  { inputsW with initial_fcf := -5 }

/-- Inputs whose slider values are all admissible for the UI widgets of the
script, with the terminal-growth mean set to 0.05 — inside the slider range
0.01..0.06 of line 41, but outside the fixed triangular bounds 0.03..0.045
hard-coded at line 57. -/
def cexInputsTg : Inputs :=
  { initial_fcf := 425, market_price := 540.73, revenue := 2.7, de_ratio := 0.0182,
    shares := 76.67, rd := 0.04, net_cash := 255.22, tc := 0.15, years := 5,
    baseline_margin := 0.08, growth := 0.2, rf := 0.04178, erp := 0.0406,
    unlevered_beta := 1.0, term_growth := 0.05, margin_min := 0.08, margin_max := 0.12 }

/-- Concrete inputs for the triangular-bounds witness: margin bounds 0 and 2
(midpoint 1) make the square root of the inverse CDF rational. -/
def inputsTri : Inputs :=
  { inputsW with margin_min := 0, margin_max := 2 }

/-- The draw produced by `sampleDraw` on `inputsTri` with uniform variates
`u1 = 1/2` (margin) and `u2 = 0` (terminal growth). -/
def drawTri : Draw :=
  { g := 0, m := 1, r_f := 0, er_p := 0, beta_u := 0, t_growth := 0.03 }

theorem runSim_values (a : Inputs) (ds : List Draw) :
    (runSim a ds).1 = ds.map fun d => (runIteration a d).1 := by
  induction ds with
  | nil => rfl
  | cons d ds ih => simp [runSim, ih]

theorem runSim_waccs (a : Inputs) (ds : List Draw) :
    (runSim a ds).2.1 = ds.map fun d => wacc a d := by
  induction ds with
  | nil => rfl
  | cons d ds ih => simp [runSim, ih, runIteration]

theorem runSim_betas (a : Inputs) (ds : List Draw) :
    (runSim a ds).2.2 = ds.map fun d => beta_adj a d := by
  induction ds with
  | nil => rfl
  | cons d ds ih => simp [runSim, ih, runIteration]

/-- Claim C1: for every iteration, the cost-of-capital step records exactly
the spec's WACC formula — levered beta `beta_u * (1 + (1 - tc) * de_ratio)`,
adjusted beta `0.67 * levered + 0.33 * 1.0`, debt ratio `de/(1+de)`, equity
ratio `1 - debt ratio`, cost of equity `r_f + adjusted beta * erp`, and
`WACC = equity_ratio * cost_of_equity + debt_ratio * rd * (1 - tc)` — with no
floor or cap applied (the recorded value is exactly the formula), and the
(WACC, adjusted beta) pair is recorded for that iteration in order. -/
theorem C1_cost_of_capital (a : Inputs) (ds : List Draw) (hde : a.de_ratio ≠ -1) :
    (runSim a ds).2.1 = ds.map (fun d => wacc_spec a d) ∧
      (runSim a ds).2.2 = ds.map (fun d => beta_adj_spec a d) := by
  refine ⟨(runSim_waccs a ds).trans ?_, (runSim_betas a ds).trans ?_⟩ <;> rfl

/-- Witness for C1 at a concrete input. -/
theorem C1_witness :
    inputsW.de_ratio ≠ -1 ∧
      ((runSim inputsW [dZero]).2.1 = [dZero].map (fun d => wacc_spec inputsW d) ∧
        (runSim inputsW [dZero]).2.2 = [dZero].map (fun d => beta_adj_spec inputsW d)) :=
  ⟨by decide, C1_cost_of_capital inputsW [dZero] (by decide)⟩

theorem projectLoop_closed_form (a : Inputs) (d : Draw) (w : ℚ) (h : ℕ) :
    (projectLoop a d w h).1 = a.initial_fcf * fcf_factor a d ^ h ∧
      (projectLoop a d w h).2 =
        ∑ y ∈ Finset.range h, a.initial_fcf * fcf_factor a d ^ (y + 1) / (1 + w) ^ (y + 1) := by
  induction h with
  | zero => simp [projectLoop]
  | succ n ih =>
    obtain ⟨h1, h2⟩ := ih
    constructor
    · simp only [projectLoop, h1]
      ring
    · simp only [projectLoop, h1, h2, Finset.sum_range_succ]
      ring

/-- Claim C2: in the (profitable-variant) cash-flow projection the running FCF
starts at `initial_fcf` and is multiplied each year `y = 1..horizon` by
`(1+g) * (1 + (m - baseline_margin)/baseline_margin * 0.1)`, while each
year's FCF divided by `(1 + WACC)^y` is accumulated; the step yields the
final-year FCF `initial_fcf * factor^horizon` and the accumulated sum. -/
theorem C2_fcf_projection (a : Inputs) (d : Draw) (w : ℚ)
    (hbm : a.baseline_margin ≠ 0) (hw : w ≠ -1) (hh : 1 ≤ a.years) :
    (projectLoop a d w a.years).1 =
        a.initial_fcf *
          ((1 + d.g) * (1 + (d.m - a.baseline_margin) / a.baseline_margin * 0.1)) ^ a.years ∧
      (projectLoop a d w a.years).2 =
        ∑ y ∈ Finset.range a.years,
          a.initial_fcf *
              ((1 + d.g) * (1 + (d.m - a.baseline_margin) / a.baseline_margin * 0.1)) ^ (y + 1) /
            (1 + w) ^ (y + 1) :=
  projectLoop_closed_form a d w a.years

/-- Witness for C2 at a concrete input. -/
theorem C2_witness :
    inputsW.baseline_margin ≠ 0 ∧ (0 : ℚ) ≠ -1 ∧ 1 ≤ inputsW.years ∧
      ((projectLoop inputsW dZero 0 inputsW.years).1 =
          inputsW.initial_fcf *
            ((1 + dZero.g) *
                (1 + (dZero.m - inputsW.baseline_margin) / inputsW.baseline_margin * 0.1)) ^
              inputsW.years ∧
        (projectLoop inputsW dZero 0 inputsW.years).2 =
          ∑ y ∈ Finset.range inputsW.years,
            inputsW.initial_fcf *
                ((1 + dZero.g) *
                    (1 + (dZero.m - inputsW.baseline_margin) / inputsW.baseline_margin * 0.1)) ^
                  (y + 1) /
              (1 + (0 : ℚ)) ^ (y + 1)) :=
  ⟨by decide, by decide, by decide,
    C2_fcf_projection inputsW dZero 0 (by decide) (by decide) (by decide)⟩

/-- Claim C3: the terminal-value step computes
`spread = max(WACC - terminal_growth, 0.005)`, which is at least 0.005 for
every WACC and terminal growth; the terminal value is
`final FCF * (1 + terminal_growth) / spread` and the terminal present value
is `terminal value / (1 + WACC)^horizon`. -/
theorem C3_terminal_value (w tg fcf : ℚ) (h : ℕ) :
    (0.005 : ℚ) ≤ spread w tg ∧
      spread w tg = max (w - tg) 0.005 ∧
      terminal_value fcf tg w = fcf * (1 + tg) / spread w tg ∧
      terminal_pv fcf tg w h = terminal_value fcf tg w / (1 + w) ^ h :=
  ⟨le_max_right _ _, rfl, rfl, rfl⟩

/-- Claim C4: for valid inputs and any completed run of N ≥ 1 iterations,
each of the three result sequences has exactly N elements, one appended per
iteration in iteration order. -/
theorem C4_sequence_lengths (a : Inputs) (ds : List Draw)
    (hv : validInputs a = true) (hN : 1 ≤ ds.length) :
    (runSim a ds).1.length = ds.length ∧
      (runSim a ds).2.1.length = ds.length ∧
      (runSim a ds).2.2.length = ds.length := by
  refine ⟨?_, ?_, ?_⟩
  · rw [runSim_values]; exact List.length_map _ _
  · rw [runSim_waccs]; exact List.length_map _ _
  · rw [runSim_betas]; exact List.length_map _ _

/-- Witness for C4 at a concrete input. -/
theorem C4_witness :
    validInputs inputsW = true ∧ 1 ≤ ([dZero] : List Draw).length ∧
      ((runSim inputsW [dZero]).1.length = ([dZero] : List Draw).length ∧
        (runSim inputsW [dZero]).2.1.length = ([dZero] : List Draw).length ∧
        (runSim inputsW [dZero]).2.2.length = ([dZero] : List Draw).length) :=
  ⟨by decide, by decide, C4_sequence_lengths inputsW [dZero] (by decide) (by decide)⟩

/-- Claim C5, counterexample: the claim says a non-positive initial FCF must
be rejected before any simulation iteration executes, but the script's
validation (line 28) checks only shares and revenue: with positive shares and
revenue and `initial_fcf = -5`, validation passes and the simulation runs,
producing a non-empty result sequence. -/
theorem C5_counterexample :
    cexInputsFcf.initial_fcf ≤ 0 ∧ validInputs cexInputsFcf = true ∧
      (runProgram cexInputsFcf [dZero]).isSome = true := by
  refine ⟨by decide, by decide, ?_⟩
  rw [runProgram, if_pos (by decide)]
  rfl

/-- Claim C5, amended: a run is rejected — atomically, producing none of the
simulation state — exactly when shares ≤ 0 or revenue ≤ 0; a non-positive
initial FCF is not checked, and a horizon < 1 cannot reach the engine (the
horizon widget's minimum is 1). -/
theorem C5_validation (a : Inputs) (ds : List Draw) :
    runProgram a ds = none ↔ a.shares ≤ 0 ∨ a.revenue ≤ 0 := by
  rw [runProgram]
  by_cases h : validInputs a = true
  · rw [if_pos h]
    simp only [validInputs, Bool.not_eq_true', Bool.or_eq_false_iff,
      decide_eq_false_iff_not] at h
    simp only [reduceCtorEq, false_iff]
    exact fun hc => hc.elim h.1 h.2
  · rw [if_neg h]
    simp only [validInputs, Bool.not_eq_true, Bool.not_eq_false', Bool.or_eq_true,
      decide_eq_true_eq] at h
    simpa using h

theorem spread_pos (w tg : ℚ) : 0 < spread w tg :=
  lt_of_lt_of_le (by norm_num) (le_max_right (w - tg) 0.005)

theorem projectLoopE_pure (a : Inputs) (d : Draw) (w : ℚ)
    (hbm : a.baseline_margin ≠ 0) (hw : (1 : ℚ) + w ≠ 0) (y : ℕ) :
    projectLoopE a d w y = some (projectLoop a d w y) := by
  induction y with
  | zero => rfl
  | succ n ih =>
    have hp : ((1 : ℚ) + w) ^ (n + 1) ≠ 0 := pow_ne_zero _ hw
    simp only [projectLoopE, ih, Option.some_bind, stepDiv, if_neg hbm, if_neg hp,
      Option.some.injEq]
    simp only [projectLoop, fcf_factor]

/-- Claim C6, counterexample: the claim says sampling always succeeds for
every valid assumption set, but with every widget value inside its UI range
and the terminal-growth mean at 0.05 (slider range is 0.01..0.06), the call
`np.random.triangular(0.03, 0.05, 0.045)` at line 57 has its mode above its
right bound and raises `ValueError`, so the sampling step fails even though
validation passed. -/
theorem C6_counterexample :
    validInputs cexInputsTg = true ∧ sampleDraw cexInputsTg 0 0 0 0 0 0 0 0 = none := by
  constructor
  · simp only [validInputs, cexInputsTg, Bool.not_eq_true', Bool.or_eq_false_iff,
      decide_eq_false_iff_not]
    norm_num
  · rw [sampleDraw, if_neg]
    simp only [samplingValid, triangularValid, cexInputsTg, Bool.and_eq_true,
      decide_eq_true_eq, not_and]
    intro _ _
    norm_num

/-- Claim C6, amended: for valid inputs, the sampling step succeeds exactly
under the triangular preconditions (`margin_min ≤ margin_max` and a
terminal-growth mean in `[0.03, 0.045]`), and — given a sample — every
subsequent per-iteration step is total provided `de_ratio ≠ -1`,
`baseline_margin ≠ 0` and the iteration's WACC is not −1: the
failure-explicit iteration returns exactly the pure iteration's value (in
particular the terminal-value division is guarded by the spread floor, and
the per-share division by the validated positive share count). -/
theorem C6_totality (a : Inputs) (d : Draw)
    (hv : validInputs a = true)
    (hmm : a.margin_min ≤ a.margin_max)
    (htg1 : (0.03 : ℚ) ≤ a.term_growth) (htg2 : a.term_growth ≤ 0.045)
    (hde : (1 : ℚ) + a.de_ratio ≠ 0) (hbm : a.baseline_margin ≠ 0)
    (hw : (1 : ℚ) + wacc a d ≠ 0) :
    samplingValid a = true ∧ runIterationE a d = some (runIteration a d) := by
  have hsh : a.shares ≠ 0 := by
    simp only [validInputs, Bool.not_eq_true', Bool.or_eq_false_iff,
      decide_eq_false_iff_not] at hv
    exact ne_of_gt (lt_of_not_le hv.1)
  constructor
  · simp only [samplingValid, triangularValid, Bool.and_eq_true, decide_eq_true_eq]
    exact ⟨⟨by linarith, by linarith⟩, htg1, htg2⟩
  · have hdr : stepDiv a.de_ratio (1 + a.de_ratio) = some (debt_ratio a) := by
      rw [stepDiv, if_neg hde, debt_ratio]
    have hwx : (1 - debt_ratio a) * (d.r_f + beta_adj a d * d.er_p) +
        debt_ratio a * a.rd * (1 - a.tc) = wacc a d := rfl
    have hsp : spread (wacc a d) d.t_growth ≠ 0 := ne_of_gt (spread_pos _ _)
    have hpw : ((1 : ℚ) + wacc a d) ^ a.years ≠ 0 := pow_ne_zero _ hw
    rw [runIterationE, hdr, Option.some_bind, hwx,
      projectLoopE_pure a d (wacc a d) hbm hw a.years, Option.some_bind,
      stepDiv, if_neg hsp, Option.some_bind, stepDiv, if_neg hpw, Option.some_bind,
      stepDiv, if_neg hsh, Option.some_bind]
    rfl

/-- Witness for C6 (amended) at a concrete input. -/
theorem C6_witness :
    validInputs inputsW = true ∧ inputsW.margin_min ≤ inputsW.margin_max ∧
      (0.03 : ℚ) ≤ inputsW.term_growth ∧ inputsW.term_growth ≤ 0.045 ∧
      (1 : ℚ) + inputsW.de_ratio ≠ 0 ∧ inputsW.baseline_margin ≠ 0 ∧
      (1 : ℚ) + wacc inputsW dZero ≠ 0 ∧
      (samplingValid inputsW = true ∧
        runIterationE inputsW dZero = some (runIteration inputsW dZero)) :=
  ⟨by decide, by norm_num [inputsW], by norm_num [inputsW], by norm_num [inputsW],
    by norm_num [inputsW], by norm_num [inputsW],
    by norm_num [wacc, equity_ratio, debt_ratio, re_cost, beta_adj, beta_l, inputsW, dZero],
    C6_totality inputsW dZero (by decide) (by norm_num [inputsW]) (by norm_num [inputsW])
      (by norm_num [inputsW]) (by norm_num [inputsW]) (by norm_num [inputsW])
      (by norm_num [wacc, equity_ratio, debt_ratio, re_cost, beta_adj, beta_l, inputsW, dZero])⟩

theorem projectLoop_set_net_cash (a : Inputs) (nc : ℚ) (d : Draw) (w : ℚ) (y : ℕ) :
    projectLoop { a with net_cash := nc } d w y = projectLoop a d w y := by
  induction y with
  | zero => rfl
  | succ n ih =>
    simp only [projectLoop, ih]
    rfl

/-- Claim C7: holding the draw and all other inputs fixed, with positive
shares outstanding, the intrinsic value per share is monotonically
non-decreasing in net cash. -/
theorem C7_net_cash_monotone (a : Inputs) (d : Draw) (nc1 nc2 : ℚ)
    (hs : 0 < a.shares) (h : nc1 ≤ nc2) :
    (runIteration { a with net_cash := nc1 } d).1 ≤
      (runIteration { a with net_cash := nc2 } d).1 := by
  have e : ∀ nc : ℚ,
      (runIteration { a with net_cash := nc } d).1 =
        (equity_val (projectLoop a d (wacc a d) a.years).2
            (terminal_pv (projectLoop a d (wacc a d) a.years).1 d.t_growth (wacc a d) a.years)
            nc) / a.shares := by
    intro nc
    rw [runIteration]
    rw [show wacc { a with net_cash := nc } d = wacc a d from rfl]
    rw [show ({ a with net_cash := nc } : Inputs).years = a.years from rfl]
    rw [projectLoop_set_net_cash]
    rfl
  rw [e nc1, e nc2]
  rw [div_le_div_iff_of_pos_right hs]
  simp only [equity_val]
  linarith

/-- Witness for C7 at a concrete input. -/
theorem C7_witness :
    0 < inputsW.shares ∧ (0 : ℚ) ≤ 1 ∧
      (runIteration { inputsW with net_cash := 0 } dZero).1 ≤
        (runIteration { inputsW with net_cash := 1 } dZero).1 :=
  ⟨by decide, by decide, C7_net_cash_monotone inputsW dZero 0 1 (by decide) (by decide)⟩

/-- Claim C8: for an ensemble of N ≥ 1 intrinsic values and any market price,
the probability-above-market statistic equals (count of values strictly above
the price) / N × 100 and lies in [0, 100]. -/
theorem C8_prob_above_market (values : List ℚ) (price : ℚ) (hN : 1 ≤ values.length) :
    prob_above_market values price =
        ((values.countP fun v => decide (price < v)) : ℚ) / (values.length : ℚ) * 100 ∧
      0 ≤ prob_above_market values price ∧ prob_above_market values price ≤ 100 := by
  have hc : ((values.countP fun v => decide (price < v)) : ℚ) ≤ (values.length : ℚ) := by
    exact_mod_cast List.countP_le_length (fun v => decide (price < v))
  have h0 : (0 : ℚ) ≤ ((values.countP fun v => decide (price < v)) : ℚ) := by positivity
  have hn : (0 : ℚ) < (values.length : ℚ) := by exact_mod_cast hN
  refine ⟨rfl, ?_, ?_⟩
  · rw [prob_above_market]
    positivity
  · rw [prob_above_market, div_mul_eq_mul_div, div_le_iff₀ hn]
    nlinarith

/-- Witness for C8 at a concrete ensemble. -/
theorem C8_witness :
    1 ≤ ([1] : List ℚ).length ∧
      (prob_above_market [1] 0 =
          ((([1] : List ℚ).countP fun v => decide ((0 : ℚ) < v)) : ℚ) /
              ((([1] : List ℚ).length : ℕ) : ℚ) * 100 ∧
        0 ≤ prob_above_market [1] 0 ∧ prob_above_market [1] 0 ≤ 100) :=
  ⟨by decide, C8_prob_above_market [1] 0 (by decide)⟩

/-- Claim C9: the script draws its randomness from the unseeded global NumPy
generator (lines 52-57) and exposes no seed input, so its result sequences
are a function of RNG draws that nothing in the program pins down: at the
same, valid inputs, two different draw streams yield different recorded WACC
sequences.  (Determinism under a fixed seed is unattainable as written: no
seed can be supplied.) -/
theorem C9_rng_dependence :
    (runSim inputsW [dZero]).2.1 ≠ (runSim inputsW [dOne]).2.1 := by
  have h0 : wacc inputsW dZero = 0 := by
    norm_num [wacc, equity_ratio, debt_ratio, re_cost, beta_adj, beta_l, inputsW, dZero]
  have h1 : wacc inputsW dOne = 1 := by
    norm_num [wacc, equity_ratio, debt_ratio, re_cost, beta_adj, beta_l, inputsW, dOne, dZero]
  simp [runSim_waccs, h0, h1]

theorem triangular_mem (l m r u s : ℚ) (hlm : l ≤ m) (hmr : m ≤ r)
    (hu0 : 0 ≤ u) (hu1 : u ≤ 1) (hs0 : 0 ≤ s)
    (hL : u * (r - l) ≤ m - l → s ^ 2 = u * (r - l) * (m - l))
    (hR : ¬u * (r - l) ≤ m - l → s ^ 2 = (1 - u) * (r - l) * (r - m)) :
    l ≤ triangularICDF l m r u s ∧ triangularICDF l m r u s ≤ r := by
  rw [triangularICDF]
  by_cases hc : u * (r - l) ≤ m - l
  · rw [if_pos hc]
    have hsq := hL hc
    have h1 : s ^ 2 ≤ (r - l) ^ 2 := by nlinarith
    have hle : s ≤ r - l :=
      (pow_le_pow_iff_left₀ hs0 (by linarith) (by norm_num)).mp h1
    constructor <;> linarith
  · rw [if_neg hc]
    have hsq := hR hc
    have h1 : s ^ 2 ≤ (r - l) ^ 2 := by nlinarith
    have hle : s ≤ r - l :=
      (pow_le_pow_iff_left₀ hs0 (by linarith) (by norm_num)).mp h1
    constructor <;> linarith

/-- Claim C10: whenever the sampling step succeeds, the sampled margin lies
in `[margin_min, margin_max]` and the sampled terminal growth lies in the
fixed interval `[0.03, 0.045]` regardless of the configured terminal-growth
mean: the triangular draws are bounded by their endpoints.  The uniform
variates `u1, u2` and the square-root values `s1, s2` characterise the
inverse-CDF draws (see `triangularICDF`). -/
theorem C10_triangular_bounds (a : Inputs) (gv rfv erpv buv u1 s1 u2 s2 : ℚ) (d : Draw)
    (hu10 : 0 ≤ u1) (hu11 : u1 ≤ 1) (hs10 : 0 ≤ s1)
    (hL1 : u1 * (a.margin_max - a.margin_min) ≤ (a.margin_min + a.margin_max) / 2 - a.margin_min →
      s1 ^ 2 = u1 * (a.margin_max - a.margin_min) *
        ((a.margin_min + a.margin_max) / 2 - a.margin_min))
    (hR1 : ¬u1 * (a.margin_max - a.margin_min) ≤
        (a.margin_min + a.margin_max) / 2 - a.margin_min →
      s1 ^ 2 = (1 - u1) * (a.margin_max - a.margin_min) *
        (a.margin_max - (a.margin_min + a.margin_max) / 2))
    (hu20 : 0 ≤ u2) (hu21 : u2 ≤ 1) (hs20 : 0 ≤ s2)
    (hL2 : u2 * ((0.045 : ℚ) - 0.03) ≤ a.term_growth - 0.03 →
      s2 ^ 2 = u2 * ((0.045 : ℚ) - 0.03) * (a.term_growth - 0.03))
    (hR2 : ¬u2 * ((0.045 : ℚ) - 0.03) ≤ a.term_growth - 0.03 →
      s2 ^ 2 = (1 - u2) * ((0.045 : ℚ) - 0.03) * ((0.045 : ℚ) - a.term_growth))
    (hd : sampleDraw a gv rfv erpv buv u1 s1 u2 s2 = some d) :
    a.margin_min ≤ d.m ∧ d.m ≤ a.margin_max ∧
      (0.03 : ℚ) ≤ d.t_growth ∧ d.t_growth ≤ 0.045 := by
  rw [sampleDraw] at hd
  by_cases hsv : samplingValid a = true
  · rw [if_pos hsv] at hd
    injection hd with hd
    subst hd
    simp only [samplingValid, triangularValid, Bool.and_eq_true, decide_eq_true_eq] at hsv
    obtain ⟨⟨hm1, hm2⟩, ht1, ht2⟩ := hsv
    have B1 := triangular_mem a.margin_min ((a.margin_min + a.margin_max) / 2) a.margin_max
      u1 s1 hm1 hm2 hu10 hu11 hs10 hL1 hR1
    have B2 := triangular_mem 0.03 a.term_growth 0.045 u2 s2 ht1 ht2 hu20 hu21 hs20 hL2 hR2
    exact ⟨B1.1, B1.2, B2.1, B2.2⟩
  · rw [if_neg hsv] at hd
    cases hd

/-- Witness for C10 at a concrete input with rational square roots. -/
theorem C10_witness :
    inputsTri.margin_min ≤ drawTri.m ∧ drawTri.m ≤ inputsTri.margin_max ∧
      (0.03 : ℚ) ≤ drawTri.t_growth ∧ drawTri.t_growth ≤ 0.045 :=
  C10_triangular_bounds inputsTri 0 0 0 0 (1/2) 1 0 0 drawTri
    (by norm_num) (by norm_num) (by norm_num)
    (by intro _; norm_num [inputsTri, inputsW])
    (by
      intro h
      exact absurd (by norm_num [inputsTri, inputsW]) h)
    (by norm_num) (by norm_num) (by norm_num)
    (by intro _; norm_num [inputsTri, inputsW])
    (by
      intro h
      exact absurd (by norm_num [inputsTri, inputsW]) h)
    (by
      rw [sampleDraw, if_pos]
      · simp only [triangularICDF, inputsTri, inputsW, drawTri]
        norm_num
      · simp only [samplingValid, triangularValid, inputsTri, inputsW, Bool.and_eq_true,
          decide_eq_true_eq]
        norm_num)

end DCF3
